import Mathlib

/-!
Shallow embedding of the capture-session pipeline of `imsimap.py`
(repository MaDonald/imsimap) and verification of its specification
claims.  Pure string manipulation, the line filter, the table-update
slot, the subprocess line supervisor, the replay parameter extraction
and the three export branches are translated from the source; the
byte-level UTF-8 decoder and the SQLite storage-affinity conversion
model the documented behaviour of the external libraries the source
calls (CPython's `bytes.decode`, the `sqlite3` binding).
-/

/-! ## Basic string machinery (Python list/str primitives used by the source) -/

/-- Python whitespace test for `str.strip()`, restricted to the ASCII
whitespace characters (the source only ever strips ASCII output). -/
def isWsCh (c : Char) : Bool :=
  c = ' ' || c = '\t' || c = '\n' || c = '\r' || c = '\x0b' || c = '\x0c'

/-- Strip `isWsCh` characters from both ends of a character list. -/
def stripWsL (cs : List Char) : List Char :=
  ((cs.dropWhile isWsCh).reverse.dropWhile isWsCh).reverse

/-- Python `str.strip()` (as used on decoded subprocess lines). -/
def pyStrip (s : String) : String := ⟨stripWsL s.data⟩

/-- Is `pre` a prefix of `l`? (helper for substring containment). -/
def isPrefixL : List Char → List Char → Bool
  | [], _ => true
  | _ :: _, [] => false
  | a :: as, b :: bs => a == b && isPrefixL as bs

/-- Python substring containment `needle in hay`. -/
def containsSub (hay needle : List Char) : Bool :=
  if isPrefixL needle hay then true
  else
    match hay with
    | [] => false
    | _ :: t => containsSub t needle

/-- Python `'CellId' in line` (the header-marker test of the source). -/
def hasCellId (line : String) : Bool := containsSub line.data "CellId".data

/-- Python `line.count(';')` — number of semicolon separators. -/
def semiCount (line : String) : Nat := line.data.count ';'

/-- Helper for Python `str.split(';')`. -/
def splitSemisAux : List Char → List Char → List String
  | [], acc => [⟨acc.reverse⟩]
  | c :: t, acc => if c = ';' then ⟨acc.reverse⟩ :: splitSemisAux t [] else splitSemisAux t (c :: acc)

/-- Python `line.split(';')`: splits on every semicolon, keeping empty fields. -/
def splitSemis (line : String) : List String := splitSemisAux line.data []

/-- Python `str.endswith(suffix)` (used on the chosen export file name). -/
def strEndsWith (s suffix : String) : Bool := isPrefixL suffix.data.reverse s.data.reverse

/-! ## The application state (the pieces of `IMSIMAP` the claims are about)

A Qt table cell is `Option String`: `some s` when `setItem` stored an item
with text `s`, `none` when the cell was never set (`item(row, col)` returns
`None` in the source, which every consumer branches on). -/

/-- A Python float value: a finite value (exact rational abstraction of
the binary double), an infinity, or NaN. -/
inductive PyFloat where
  | finite (q : ℚ)
  | inf (neg : Bool)
  | nan
deriving DecidableEq

/-- The mutable state of an `IMSIMAP` window that the verified operations
touch: the Live Table (`imsi_table`), the Logs tab text (as lines), the
`grgsm_instance` capture parameters, the UI controls mirroring them, and a
count of `grgsm_instance.start()` invocations. -/
structure AppState where
  imsi_table : List (List (Option String))
  logLines : List String
  fc : ℚ
  gain : PyFloat
  ppm : PyFloat
  uiFreq : ℚ
  uiGain : PyFloat
  uiPpm : PyFloat
  captureStarts : Nat
deriving DecidableEq

/-- The row that `update_table` materialises for a record-bearing line:
`fields = line.split(';')`, the first field is skipped, and `setItem` is
called for each remaining field index that falls inside the table's 11
columns; the other cells stay unset (`none`). -/
def recordRow (line : String) : List (Option String) :=
  (List.range 11).map (fun i => ((splitSemis line).drop 1).get? i)

/-- `IMSIMAP.update_table` (src/imsimap.py:1008-1021): appends one row for a
line with at least 6 semicolons and no `"CellId"`, otherwise does nothing. -/
def update_table (st : AppState) (line : String) : AppState :=
  if 6 ≤ semiCount line ∧ hasCellId line = false then
    { st with imsi_table := st.imsi_table ++ [recordRow line] }
  else st

/-- `IMSIMAP.start_capture` (src/imsimap.py:709-725): appends the banner line
to the Logs tab and starts the grgsm flowgraph.  `tstamp` stands for the
formatted current time.  Note this function does not touch `imsi_table`. -/
def start_capture (st : AppState) (tstamp : String) : AppState :=
  { st with
      logLines := st.logLines ++ ["Starting IMSI MAP version 1.0 scan at " ++ tstamp]
      captureStarts := st.captureStarts + 1 }

/-! ## Permissive UTF-8 decoding

`OutputReader.run` decodes each byte line with `line.decode('utf-8')` and
falls back to `line.decode('utf-8', errors='ignore')` on a
`UnicodeDecodeError`.  The decoder below models CPython's UTF-8 codec
(strict UTF-8: no surrogates, no overlong forms, code points up to
U+10FFFF); the `ignore` error handler is modelled as skipping one byte at
each invalid position, which agrees with CPython on lone invalid bytes. -/

/-- Continuation byte test (`0x80..0xBF`). -/
def contB (b : Nat) : Bool := 128 ≤ b && b ≤ 191

/-- Try to decode one UTF-8 scalar starting at lead byte `b0` with the
remaining bytes `rest`; returns the character and how many bytes of `rest`
it consumed. -/
def decodeTry (b0 : Nat) (rest : List Nat) : Option (Char × Nat) :=
  if b0 < 128 then some (Char.ofNat b0, 0)
  else if 194 ≤ b0 && b0 ≤ 223 then
    match rest with
    | b1 :: _ => if contB b1 then some (Char.ofNat ((b0 - 192) * 64 + (b1 - 128)), 1) else none
    | [] => none
  else if 224 ≤ b0 && b0 ≤ 239 then
    match rest with
    | b1 :: b2 :: _ =>
      if (if b0 = 224 then 160 ≤ b1 && b1 ≤ 191
          else if b0 = 237 then 128 ≤ b1 && b1 ≤ 159
          else contB b1) && contB b2 then
        some (Char.ofNat ((b0 - 224) * 4096 + (b1 - 128) * 64 + (b2 - 128)), 2)
      else none
    | _ => none
  else if 240 ≤ b0 && b0 ≤ 244 then
    match rest with
    | b1 :: b2 :: b3 :: _ =>
      if (if b0 = 240 then 144 ≤ b1 && b1 ≤ 191
          else if b0 = 244 then 128 ≤ b1 && b1 ≤ 143
          else contB b1) && contB b2 && contB b3 then
        some (Char.ofNat ((b0 - 240) * 262144 + (b1 - 128) * 4096 + (b2 - 128) * 64 + (b3 - 128)), 3)
      else none
    | _ => none
  else none

/-- Strict UTF-8 decoding (fuel-indexed; fuel is the byte count at the top
call): `none` models a raised `UnicodeDecodeError`. -/
def utf8StrictAux : Nat → List Nat → Option (List Char)
  | _, [] => some []
  | 0, _ :: _ => none
  | fuel + 1, b0 :: rest =>
    match decodeTry b0 rest with
    | none => none
    | some (c, k) => (utf8StrictAux fuel (rest.drop k)).map (fun cs => c :: cs)

/-- UTF-8 decoding with `errors='ignore'`: invalid positions are skipped
(the bytes are dropped from the result, not replaced). -/
def utf8IgnoreAux : Nat → List Nat → List Char
  | 0, _ => []
  | _ + 1, [] => []
  | fuel + 1, b0 :: rest =>
    match decodeTry b0 rest with
    | none => utf8IgnoreAux fuel rest
    | some (c, k) => c :: utf8IgnoreAux fuel (rest.drop k)

/-- Python `b.decode('utf-8')`: `none` when it raises. -/
def utf8DecodeStrict (b : List Nat) : Option String :=
  (utf8StrictAux b.length b).map (fun cs => ⟨cs⟩)

/-- Python `b.decode('utf-8', errors='ignore')`: total. -/
def utf8DecodeIgnore (b : List Nat) : String := ⟨utf8IgnoreAux b.length b⟩

/-- The per-line decoding of `OutputReader.run` (src/imsimap.py:120-124):
strict decode, on `UnicodeDecodeError` the `ignore` fallback, then
`.strip()`.  Total: it never fails. -/
def decodeLine (b : List Nat) : String :=
  match utf8DecodeStrict b with
  | some s => pyStrip s
  | none => pyStrip (utf8DecodeIgnore b)

/-! ## The subprocess supervisor (`runProcess`) and the reader thread -/

/-- A value yielded by the `runProcess` generator: an ordinary `bytes` line
read from the child's stdout, or one of the synthetic Python `str` lines
(`"Error: ..."` / `"Exception: ..."`). -/
inductive PyLine where
  | bytes (b : List Nat)
  | pystr (s : String)
deriving DecidableEq

/-- One run of the external decoder process, as observable by `runProcess`:
the byte lines its stdout delivered (including any empty reads), its exit
code, and the bytes buffered on stderr at exit. -/
structure Proc where
  stdoutLines : List (List Nat)
  retcode : Int
  stderrBytes : List Nat
deriving DecidableEq

/-- `p.stderr.read().decode('utf-8', 'ignore').strip()` from `runProcess`. -/
def stderrText (p : Proc) : String := pyStrip (utf8DecodeIgnore p.stderrBytes)

/-- `runProcess` (src/imsimap.py:136-160) as the finite sequence of values
the generator yields.  `launch` is `.error msg` when `subprocess.Popen`
raises (then the single synthetic `"Exception: ..."` line is yielded) and
`.ok p` when the child runs to completion `p`: the stdout byte lines are
yielded, and when the exit code is non-zero and the stripped stderr text is
non-empty one final synthetic `"Error: ..."` line follows. -/
def runProcess (launch : Except String Proc) : List PyLine :=
  match launch with
  | .error e => [PyLine.pystr ("Exception: " ++ e)]
  | .ok p =>
    p.stdoutLines.map PyLine.bytes ++
      (if p.retcode ≠ 0 ∧ stderrText p ≠ "" then [PyLine.pystr ("Error: " ++ stderrText p)] else [])

/-- One pass of the `for line in runProcess(...)` body of
`OutputReader.run` (src/imsimap.py:120-131): a `bytes` line is decoded and
emitted through `output_signal` when non-empty and free of `"CellId"`; a
synthetic `str` line has no `.decode` method, so it raises
`AttributeError`, which the surrounding bare `except` swallows — the pass
ends there and nothing more of this generator is consumed.  Returns the
emitted lines of the pass. -/
def processIter : List PyLine → List String
  | [] => []
  | PyLine.bytes b :: rest =>
    let d := decodeLine b
    if d ≠ "" ∧ hasCellId d = false then d :: processIter rest else processIter rest
  | PyLine.pystr _ :: _ => []

/-- An observable event of the reader thread: a launch of the external
command (one `subprocess.Popen` call) or a line emitted to the consumer. -/
inductive REvent where
  | launch
  | emit (s : String)
deriving DecidableEq

/-- The trace of the `while True` loop of `OutputReader.run`
(src/imsimap.py:117-134) after `n` iterations: each iteration launches the
command once (`behav i` is what the `i`-th launch does) and emits the lines
of `processIter`; any exception is swallowed and the loop repeats. -/
def readerTrace (behav : Nat → Except String Proc) : Nat → List REvent
  | 0 => []
  | n + 1 =>
    readerTrace behav n ++
      (REvent.launch :: (processIter (runProcess (behav n))).map REvent.emit)

/-! ## Numeric literal grammars

`extract_params_from_logs` coerces the stored session parameters with
CPython's `int(...)` for the frequency and `float(...)` for gain and ppm,
and the sqlite export branch hands raw text to SQLite, whose type affinity
applies its own numeric-literal grammar.  The two grammars share the core
below (whitespace, an optional sign, a decimal mantissa with optional
fraction and exponent); CPython additionally allows single underscores
between digits and the special names `inf`/`infinity`/`nan`
(case-insensitively), which SQLite does not. -/

/-- Decimal digit test. -/
def isDigitCh (c : Char) : Bool := '0' ≤ c && c ≤ '9'

/-- A non-empty all-digit character list. -/
def digitsOnly (cs : List Char) : Bool := !cs.isEmpty && cs.all isDigitCh

/-- Numeric value of a digit list (base 10). -/
def natOfDigits (cs : List Char) : Nat := cs.foldl (fun a c => a * 10 + (c.toNat - 48)) 0

/-- Peel an optional leading sign: `(negative?, rest)`. -/
def signSplit : List Char → Bool × List Char
  | '+' :: t => (false, t)
  | '-' :: t => (true, t)
  | t => (false, t)

/-- Split a character list at the first character satisfying `p`:
`(before, some after)` when found, `(cs, none)` otherwise. -/
def splitAtPred (p : Char → Bool) : List Char → List Char × Option (List Char)
  | [] => ([], none)
  | c :: t =>
    if p c then ([], some t)
    else
      let r := splitAtPred p t
      (c :: r.1, r.2)

/-- Exponent marker test. -/
def isECh (c : Char) : Bool := c = 'e' || c = 'E'

/-- Decimal point test. -/
def isDotCh (c : Char) : Bool := c = '.'

/-- Parse a float exponent part (after `e`/`E`): optional sign and digits. -/
def parseExp (ec : List Char) : Option Int :=
  let st := signSplit ec
  if digitsOnly st.2 then
    some (if st.1 then -(natOfDigits st.2 : Int) else (natOfDigits st.2 : Int))
  else none

/-- Parse an unsigned float mantissa: digits with an optional single
decimal point and at least one digit; returns the significand and the
number of fractional digits. -/
def parseMant (mc : List Char) : Option (Nat × Nat) :=
  match splitAtPred isDotCh mc with
  | (ip, none) => if digitsOnly ip then some (natOfDigits ip, 0) else none
  | (ip, some fp) =>
    if ip.all isDigitCh && fp.all isDigitCh && !(ip.isEmpty && fp.isEmpty) then
      some (natOfDigits (ip ++ fp), fp.length)
    else none

/-! ### CPython `int()` / `float()`

Finite values are represented exactly as rationals (the claims never
depend on floating-point rounding); infinities and NaN get their own
constructors.  Non-ASCII digit and whitespace codepoints, which CPython
also accepts, are outside the model; the failure predicate `floatBad`
below is therefore restricted to ASCII-clean strings, on which the model
matches CPython exactly. -/

/-- One step of the underscored digit-group check: `prevUnd` records
whether the previous character was an underscore (an underscore must be
surrounded by digits, and the group must not end on one). -/
def digitsUAux (prevUnd : Bool) : List Char → Bool
  | [] => !prevUnd
  | c :: t =>
    if isDigitCh c then digitsUAux false t
    else if c = '_' then !prevUnd && digitsUAux true t
    else false

/-- A CPython digit group: digits with single underscores strictly between
digits (`1_000` is valid; `_1`, `1_` and `1__0` are not). -/
def digitsU : List Char → Bool
  | [] => false
  | c :: t => isDigitCh c && digitsUAux false t

/-- Remove the underscore separators before computing the value. -/
def stripUnd (cs : List Char) : List Char := cs.filter (fun c => !(c == '_'))

/-- CPython float exponent part (after `e`/`E`): optional sign and an
underscored digit group. -/
def parseExpU (ec : List Char) : Option Int :=
  let st := signSplit ec
  if digitsU st.2 then
    some (if st.1 then -(natOfDigits (stripUnd st.2) : Int)
          else (natOfDigits (stripUnd st.2) : Int))
  else none

/-- CPython float mantissa: underscored digit groups around an optional
single decimal point, with at least one digit overall. -/
def parseMantU (mc : List Char) : Option (Nat × Nat) :=
  match splitAtPred isDotCh mc with
  | (ip, none) => if digitsU ip then some (natOfDigits (stripUnd ip), 0) else none
  | (ip, some fp) =>
    if (ip.isEmpty || digitsU ip) && (fp.isEmpty || digitsU fp) && !(ip.isEmpty && fp.isEmpty) then
      some (natOfDigits (stripUnd (ip ++ fp)), (stripUnd fp).length)
    else none

/-- An unsigned finite CPython float literal `mantissa [e exponent]`. -/
def parseUnsignedFloatU (cs : List Char) : Option ℚ :=
  let me := splitAtPred isECh cs
  match parseMantU me.1, (match me.2 with | none => some (0 : Int) | some e => parseExpU e) with
  | some mf, some ex => some ((mf.1 : ℚ) * (10 : ℚ) ^ (ex - (mf.2 : Int)))
  | _, _ => none

/-- ASCII lower-casing, for the case-insensitive special float names. -/
def asciiLower (c : Char) : Char :=
  if 'A' ≤ c && c ≤ 'Z' then Char.ofNat (c.toNat + 32) else c

/-- Python `int(s)` on a string: strip whitespace, optional sign, an
underscored digit group; `none` models a raised `ValueError`. -/
def pyIntParse (s : String) : Option Int :=
  let st := signSplit (stripWsL s.data)
  if digitsU st.2 then
    some (if st.1 then -(natOfDigits (stripUnd st.2) : Int)
          else (natOfDigits (stripUnd st.2) : Int))
  else none

/-- Python `float(s)` on a string: strip whitespace, optional sign, then
`inf` / `infinity` / `nan` (case-insensitively) or a finite literal;
`none` models a raised `ValueError`. -/
def pyFloatParse (s : String) : Option PyFloat :=
  let st := signSplit (stripWsL s.data)
  let low := st.2.map asciiLower
  if low = "inf".data ∨ low = "infinity".data then some (PyFloat.inf st.1)
  else if low = "nan".data then some PyFloat.nan
  else (parseUnsignedFloatU st.2).map (fun q => PyFloat.finite (if st.1 then -q else q))

/-- Printable ASCII plus the standard whitespace characters: the region on
which the CPython number grammar above is exact (CPython additionally
accepts non-ASCII digit and whitespace codepoints and the ASCII separator
control characters 0x1C-0x1F as whitespace). -/
def asciiClean (s : String) : Bool :=
  s.data.all (fun c => (9 ≤ c.toNat && c.toNat ≤ 13) || (32 ≤ c.toNat && c.toNat ≤ 127))

/-! ## Session replay (`extract_params_from_logs` / `repeat_scan`) -/

/-- A JSON value stored under `frequency` / `gain` / `ppm` in
`logs/scan_data.json`: `null`, a number, or a string. -/
inductive JVal where
  | null
  | num (q : ℚ)
  | str (s : String)
deriving DecidableEq

/-- The stored session entry as `repeat_scan` sees it (`scan_data.get(timestamp, {})`):
each parameter key may be absent from the dictionary. -/
structure SessionLogs where
  frequency : Option JVal
  gain : Option JVal
  ppm : Option JVal
deriving DecidableEq

/-- Python `int(x)` truncates a number toward zero. -/
def pyIntOfNum (q : ℚ) : Int := if 0 ≤ q then q.floor else q.ceil

/-- `frequency = int(frequency_str) if frequency_str is not None else None`:
outer `none` models a raised `ValueError`, `some none` a stored Python
`None`, `some (some q)` a converted value. -/
def convFreq : JVal → Option (Option ℚ)
  | .null => some none
  | .num q => some (some ((pyIntOfNum q : Int) : ℚ))
  | .str s =>
    match pyIntParse s with
    | some n => some (some (n : ℚ))
    | none => none

/-- `float(x) if x is not None else None` for gain and ppm (same coding as
`convFreq`; a stored JSON number is already a float). -/
def convFloatVal : JVal → Option (Option PyFloat)
  | .null => some none
  | .num q => some (some (PyFloat.finite q))
  | .str s =>
    match pyFloatParse s with
    | some x => some (some x)
    | none => none

/-- Outcome of `IMSIMAP.extract_params_from_logs` (src/imsimap.py:888-903):
`ok` carries the three converted values (each `none` when the stored value
was JSON null); `convError` is the `(ValueError, TypeError)` handler (the
conversion dialog is shown and `(None, None, None)` is returned);
`keyError` is a missing dictionary key — the `KeyError` is not caught there
and propagates to the caller. -/
inductive ExtractOutcome where
  | ok (f : Option ℚ) (g p : Option PyFloat)
  | convError
  | keyError
deriving DecidableEq

/-- `IMSIMAP.extract_params_from_logs` (src/imsimap.py:888-903). -/
def extract_params_from_logs (logs : SessionLogs) : ExtractOutcome :=
  match logs.frequency, logs.gain, logs.ppm with
  | some fv, some gv, some pv =>
    match convFreq fv, convFloatVal gv, convFloatVal pv with
    | some f, some g, some p => .ok f g p
    | _, _, _ => .convError
  | _, _, _ => .keyError

/-- Result of a replay attempt: `started` when the parameters were applied
and `start_capture` ran; `failed` when any exception path was taken (the
error dialog was shown, nothing else happened). -/
inductive ReplayOutcome where
  | started
  | failed
deriving DecidableEq

/-- `IMSIMAP.repeat_scan` (src/imsimap.py:917-944) from the point where the
stored session entry `logs` has been loaded: extract the parameters; when
any is `None` or the extraction failed, the raised exception is caught by
the surrounding handler (dialog only); otherwise `set_params_in_context`
and `update_spinboxes` apply the three values to the grgsm instance and the
UI controls (the spinbox change signals re-apply the same values) and
`start_capture` runs. -/
def repeat_scan (st : AppState) (logs : SessionLogs) (tstamp : String) :
    AppState × ReplayOutcome :=
  match extract_params_from_logs logs with
  | .ok (some fq) (some gq) (some pq) =>
    let st1 := { st with
      fc := fq, gain := gq, ppm := pq,
      uiFreq := fq, uiGain := gq, uiPpm := pq }
    (start_capture st1 tstamp, .started)
  | .ok _ _ _ => (st, .failed)
  | .convError => (st, .failed)
  | .keyError => (st, .failed)

/-! ## Export (`IMSIMAP.export_table`, src/imsimap.py:1028-1071)

The csv/txt branches open the chosen destination directly (`open(name, 'w')`
truncates or creates it) and write the header and then one chunk per row;
there is no temporary file, no rollback and no exception handler, so an I/O
failure leaves the prefix written so far under the requested name and
propagates.  The write model makes the failure point explicit: `faultAt`
is the index of the first write call that raises (or `none` for a clean
run).  The success dialog sits after the extension dispatch, inside
`if file_name:` — it is shown whenever no exception occurred, including
when the name matches no supported extension and no branch ran. -/

/-- Reading a cell back as text:
`item.text() if item else ''` in the csv/txt export loops. -/
def cellText (c : Option String) : String := c.getD ""

/-- The header labels of the Live Table (11 columns, src/imsimap.py:537). -/
def headerLabels : List String :=
  ["TMSI-1", "TMSI-2", "IMSI", "Country", "Brand", "Operator",
   "MCC", "MNC", "LAC", "CellId", "Timestamp"]

/-- Does a field need quoting under `csv.writer`'s minimal quoting? -/
def csvNeedsQuote (f : String) : Bool :=
  f.data.any (fun c => c = ',' || c = '"' || c = '\r' || c = '\n')

/-- Double every quote character (the csv escape). -/
def csvEscape (f : String) : String :=
  ⟨f.data.foldr (fun c acc => if c = '"' then '"' :: '"' :: acc else c :: acc) []⟩

/-- One csv field under minimal quoting. -/
def csvField (f : String) : String :=
  if csvNeedsQuote f then "\"" ++ csvEscape f ++ "\"" else f

/-- One `csv.writer.writerow` call: comma-joined fields and the default
`\r\n` terminator. -/
def csvRow (cells : List String) : String :=
  String.intercalate "," (cells.map csvField) ++ "\r\n"

/-- One row of the `.txt` branch: tab-joined fields and a newline. -/
def txtRow (cells : List String) : String :=
  String.intercalate "\t" cells ++ "\n"

/-- The chunk sequence the `.csv` branch writes: header row, then the
table rows with unset cells read back as `''`. -/
def csvChunks (table : List (List (Option String))) : List String :=
  csvRow headerLabels :: table.map (fun r => csvRow (r.map cellText))

/-- The chunk sequence the `.txt` branch writes. -/
def txtChunks (table : List (List (Option String))) : List String :=
  txtRow headerLabels :: table.map (fun r => txtRow (r.map cellText))

/-- Perform the write calls in order until `faultAt` (if any) raises:
returns the chunks that reached the file and whether all writes
completed. -/
def writeChunks (chunks : List String) (faultAt : Option Nat) : List String × Bool :=
  match faultAt with
  | none => (chunks, true)
  | some k => (chunks.take k, false)

/-! ### The `.sqlite` branch

`sqlite3` binds each Python value of the row list as an SQL parameter:
`None` becomes SQL NULL and a `str` is bound as text, then stored under the
destination column's type affinity.  Per the documented SQLite affinity
rules the declared types of the `observations` schema give `integer` and
`datetime` columns numeric affinity and `text` columns text affinity.
Text inserted into a numeric-affinity column is converted when it is a
well-formed numeric literal (optional surrounding whitespace, sign, digits
with optional fraction and exponent; hexadecimal literals are not
well-formed and remain text): to an INTEGER when its value is an integer
that fits a signed 64-bit word, otherwise to a REAL.  The REAL payload is
modelled by the literal's exact decimal value; SQLite stores its nearest
8-byte IEEE float (about 15 significant digits), so theorems only ever use
the stored value's class for REAL cells, never the payload. -/

/-- An SQLite stored value. -/
inductive SqlVal where
  | null
  | intg (n : Int)
  | realv (q : ℚ)
  | text (s : String)
deriving DecidableEq

/-- The declared column types of `observations`, in schema order
`(stamp, tmsi1, tmsi2, imsi, imsicountry, imsibrand, imsioperator, mcc,
mnc, lac, cell)` (src/imsimap.py:1060). -/
def sqliteColTypes : List String :=
  ["datetime", "text", "text", "text", "text", "text", "text",
   "integer", "integer", "integer", "integer"]

/-- Does this declared type give the column numeric affinity? -/
def colNumericAffinity (t : String) : Bool := t = "integer" || t = "datetime"

/-- An SQLite integer literal: optional surrounding whitespace, sign and
decimal digits (no underscores, no hexadecimal). -/
def sqlIntLiteral (s : String) : Option Int :=
  let st := signSplit (stripWsL s.data)
  if digitsOnly st.2 then
    some (if st.1 then -(natOfDigits st.2 : Int) else (natOfDigits st.2 : Int))
  else none

/-- An SQLite numeric literal, parsed into its components
`(negative?, significand, fractional digit count, exponent)`. -/
def sqlNumLiteral (s : String) : Option (Bool × Nat × Nat × Int) :=
  let st := signSplit (stripWsL s.data)
  let me := splitAtPred isECh st.2
  match parseMant me.1, (match me.2 with | none => some (0 : Int) | some e => parseExp e) with
  | some mf, some ex => some (st.1, mf.1, mf.2, ex)
  | _, _ => none

/-- The exact rational value of a parsed numeric literal. -/
def sqlNumValue : Bool × Nat × Nat × Int → ℚ
  | (sg, m, fl, ex) =>
    (if sg then -(m : ℚ) else (m : ℚ)) * (10 : ℚ) ^ (ex - (fl : Int))

/-- The value of an SQLite numeric literal as a rational. -/
def sqlRealLiteral (s : String) : Option ℚ := (sqlNumLiteral s).map sqlNumValue

/-- The literal's value as an integer, when it is one:
`±m·10^(ex-fl)` is an integer exactly when the exponent is at least the
fractional length or the surplus power of ten divides the significand. -/
def sqlIntOfComps : Bool × Nat × Nat × Int → Option Int
  | (sg, m, fl, ex) =>
    if (fl : Int) ≤ ex then
      some (if sg then -((m * 10 ^ (ex - (fl : Int)).toNat : Nat) : Int)
            else ((m * 10 ^ (ex - (fl : Int)).toNat : Nat) : Int))
    else if m % 10 ^ ((fl : Int) - ex).toNat = 0 then
      some (if sg then -((m / 10 ^ ((fl : Int) - ex).toNat : Nat) : Int)
            else ((m / 10 ^ ((fl : Int) - ex).toNat : Nat) : Int))
    else none

/-- Store one bound parameter under the column's affinity: `None` is NULL;
in a numeric-affinity column a well-formed numeric literal is stored as
its integer value when that value is an integer fitting a signed 64-bit
word and as a REAL otherwise, and any other text is kept unchanged; a
text-affinity column keeps the text as is. -/
def sqliteStore (t : String) (v : Option String) : SqlVal :=
  match v with
  | none => .null
  | some s =>
    if colNumericAffinity t then
      match sqlNumLiteral s with
      | some c =>
        match sqlIntOfComps c with
        | some n =>
          if -(2 ^ 63 : Int) ≤ n ∧ n < 2 ^ 63 then .intg n else .realv (sqlNumValue c)
        | none => .realv (sqlNumValue c)
      | none => .text s
    else .text s

/-- The row of stored values produced by one `INSERT INTO observations`:
the 11 cells are bound positionally onto the 11 schema columns
(`data[0]`, the TMSI-1 cell, lands in `stamp`, and so on). -/
def insertedRow (r : List (Option String)) : List SqlVal :=
  (sqliteColTypes.zip r).map (fun tv => sqliteStore tv.1 tv.2)

/-- The `observations` table of the destination database. -/
structure SqliteDB where
  tableExists : Bool
  rows : List (List SqlVal)
deriving DecidableEq

/-- The `.sqlite` branch of `export_table` (src/imsimap.py:1051-1069):
`CREATE TABLE IF NOT EXISTS` (existing rows are kept), then one insert per
table row, then commit. -/
def export_sqlite (db : SqliteDB) (table : List (List (Option String))) : SqliteDB :=
  { tableExists := true
    rows := db.rows ++ table.map insertedRow }

/-- Observable outcome of one `export_table` invocation:
`fileChunks` is the content written under the requested name (`none` when
the destination file was never opened), `db` the resulting database for the
`.sqlite` branch, `success` whether the success dialog was shown, `raised`
whether an exception propagated out of the slot. -/
structure ExportResult where
  fileChunks : Option (List String)
  db : Option SqliteDB
  success : Bool
  raised : Bool
deriving DecidableEq

/-- `IMSIMAP.export_table` (src/imsimap.py:1028-1071), from the point where
the save dialog returned `fileName`.  An empty name means the dialog was
cancelled and nothing at all happens.  `faultAt` injects an I/O failure
into the text-format write sequence (the sqlite path is modelled
fault-free; no claim about it involves an I/O fault). -/
def export_table (fileName : String) (table : List (List (Option String)))
    (db : SqliteDB) (faultAt : Option Nat) : ExportResult :=
  if fileName = "" then ⟨none, none, false, false⟩
  else if strEndsWith fileName ".csv" then
    let w := writeChunks (csvChunks table) faultAt
    ⟨some w.1, none, w.2, !w.2⟩
  else if strEndsWith fileName ".txt" then
    let w := writeChunks (txtChunks table) faultAt
    ⟨some w.1, none, w.2, !w.2⟩
  else if strEndsWith fileName ".sqlite" then
    ⟨none, some (export_sqlite db table), true, false⟩
  else ⟨none, none, true, false⟩

/-! ## Concrete instances used by witnesses and counterexamples -/

/-- The scenario line of the specification. -/
def scenarioLine : String :=
  "12;111;222;310170000000001;USA;Verizon;Verizon;310;170;12345;0x1A2B;2024-01-01 10:00 CET"

/-- A concrete application state with one table row. -/
def stA : AppState :=
  ⟨[[some "x", some "y", some "z", some "u", some "v", some "w",
     some "1", some "2", some "3", some "c", some "t"]],
   [], 943203831, PyFloat.finite 50, PyFloat.finite 0,
   943203831, PyFloat.finite 50, PyFloat.finite 0, 0⟩

/-- A concrete application state with an empty table. -/
def stB : AppState :=
  ⟨[], [], 943203831, PyFloat.finite 50, PyFloat.finite 0,
   943203831, PyFloat.finite 50, PyFloat.finite 0, 0⟩

/-- A child process run that exits with code 1, one stdout line `"x"`, and
`"boom"` on stderr. -/
def procX : Proc := ⟨[[120]], 1, [98, 111, 111, 109]⟩

/-- A child process run that exits cleanly (code 0) with one stdout line
`"hi"` but content `"oops"` on stderr. -/
def procZ : Proc := ⟨[[104, 105]], 0, [111, 111, 112, 115]⟩

/-- An empty destination database. -/
def dbEmpty : SqliteDB := ⟨false, []⟩

/-- A stored parameter value that is absent (missing dictionary key), JSON
null, or an ASCII-clean string that Python `float()` rejects — the failure
hypothesis of the replay claims.  The `asciiClean` guard keeps the
hypothesis inside the region where the modelled grammar is exactly
CPython's. -/
def floatBad (v : Option JVal) : Prop :=
  v = none ∨ v = some JVal.null ∨
    ∃ s, v = some (JVal.str s) ∧ asciiClean s = true ∧ pyFloatParse s = none

/-! ## Helper lemmas -/

theorem count_launch_map_emit (l : List String) :
    (l.map REvent.emit).count REvent.launch = 0 := by
  induction l with
  | nil => rfl
  | cons a t ih => simp [List.count_cons, ih]

theorem processIter_bytes_append (bl : List (List Nat)) (s : String) :
    processIter (bl.map PyLine.bytes ++ [PyLine.pystr s]) =
      processIter (bl.map PyLine.bytes) := by
  induction bl with
  | nil => rfl
  | cons b t ih => simp only [List.map_cons, List.cons_append, processIter, List.append_eq, ih]

theorem ignore_agrees_strict (fuel : Nat) :
    ∀ (l : List Nat) (cs : List Char), l.length ≤ fuel →
      utf8StrictAux fuel l = some cs → utf8IgnoreAux fuel l = cs := by
  induction fuel with
  | zero =>
    intro l cs hl hs
    cases l with
    | nil =>
      rw [utf8StrictAux] at hs
      rw [utf8IgnoreAux]
      exact (Option.some_injective _ hs).symm ▸ rfl
    | cons a t => simp at hl
  | succ fuel ih =>
    intro l cs hl hs
    cases l with
    | nil =>
      rw [utf8StrictAux] at hs
      rw [utf8IgnoreAux]
      exact (Option.some_injective _ hs).symm ▸ rfl
    | cons b0 rest =>
      rw [utf8StrictAux] at hs
      rw [utf8IgnoreAux]
      cases hdt : decodeTry b0 rest with
      | none => rw [hdt] at hs; cases hs
      | some ck =>
        obtain ⟨c, k⟩ := ck
        rw [hdt] at hs
        simp only [Option.map_eq_some'] at hs
        obtain ⟨cs', hcs', rfl⟩ := hs
        have hlen : (rest.drop k).length ≤ fuel := by
          rw [List.length_drop]
          simp only [List.length_cons] at hl
          omega
        simp only [ih (rest.drop k) cs' hlen hcs']

theorem range_map_get_pad (n : Nat) (xs : List String) :
    (List.range n).map (fun i => (xs.get? i).getD "") =
      xs.take n ++ List.replicate (n - xs.length) "" := by
  induction n with
  | zero => simp
  | succ n ih =>
    rw [List.range_succ, List.map_append, ih, List.map_singleton]
    by_cases h : n < xs.length
    · have h1 : n - xs.length = 0 := Nat.sub_eq_zero_of_le h.le
      have h2 : n + 1 - xs.length = 0 := Nat.sub_eq_zero_of_le h
      have hg : xs.get? n = some xs[n] := by
        rw [List.get?_eq_getElem?]; exact List.getElem?_eq_getElem h
      rw [h1, h2, List.take_succ, List.get?_eq_getElem?, List.getElem?_eq_getElem h]
      rw [List.get?_eq_getElem?] at hg
      simp [hg]
    · have hn : xs.length ≤ n := Nat.le_of_not_lt h
      have hg : xs.get? n = none := by
        rw [List.get?_eq_getElem?]; exact List.getElem?_eq_none hn
      have h3 : n + 1 - xs.length = (n - xs.length) + 1 := by omega
      rw [hg, h3, List.replicate_succ', List.take_of_length_le hn,
        List.take_of_length_le (by omega)]
      simp

theorem splitAtPred_eq_self (p : Char → Bool) (cs : List Char)
    (h : ∀ c ∈ cs, p c = false) : splitAtPred p cs = (cs, none) := by
  induction cs with
  | nil => rfl
  | cons c t ih =>
    rw [splitAtPred]
    rw [h c (List.mem_cons_self c t)]
    simp only [Bool.false_eq_true, if_false]
    rw [ih (fun x hx => h x (List.mem_cons_of_mem c hx))]

theorem isECh_false_of_digit (c : Char) (h : isDigitCh c = true) : isECh c = false := by
  unfold isECh
  simp only [Bool.or_eq_false_iff, decide_eq_false_iff_not]
  constructor
  · rintro rfl; exact absurd h (by decide)
  · rintro rfl; exact absurd h (by decide)

theorem isDotCh_false_of_digit (c : Char) (h : isDigitCh c = true) : isDotCh c = false := by
  unfold isDotCh
  simp only [decide_eq_false_iff_not]
  rintro rfl; exact absurd h (by decide)

theorem digitsUAux_mem (t : List Char) : ∀ (b : Bool), digitsUAux b t = true →
    ∀ c ∈ t, isDigitCh c = true ∨ c = '_' := by
  induction t with
  | nil => intro b _ c hc; cases hc
  | cons a t ih =>
    intro b h c hc
    rw [digitsUAux] at h
    rcases List.mem_cons.mp hc with rfl | hc2
    · by_cases hd : isDigitCh c = true
      · exact Or.inl hd
      · rw [if_neg hd] at h
        by_cases hu : c = '_'
        · exact Or.inr hu
        · rw [if_neg hu] at h; cases h
    · by_cases hd : isDigitCh a = true
      · rw [if_pos hd] at h
        exact ih false h c hc2
      · rw [if_neg hd] at h
        by_cases hu : a = '_'
        · rw [if_pos hu] at h
          exact ih true ((Bool.and_eq_true _ _).mp h).2 c hc2
        · rw [if_neg hu] at h; cases h

theorem digitsU_mem (cs : List Char) (h : digitsU cs = true) :
    ∀ c ∈ cs, isDigitCh c = true ∨ c = '_' := by
  cases cs with
  | nil => intro c hc; cases hc
  | cons a t =>
    rw [digitsU] at h
    obtain ⟨ha, haux⟩ := (Bool.and_eq_true _ _).mp h
    intro c hc
    rcases List.mem_cons.mp hc with rfl | hc2
    · exact Or.inl ha
    · exact digitsUAux_mem t false haux c hc2

theorem isECh_false_of_und : isECh '_' = false := by decide

theorem isDotCh_false_of_und : isDotCh '_' = false := by decide

theorem parseUnsignedFloatU_of_digitsU (t : List Char) (h : digitsU t = true) :
    (parseUnsignedFloatU t).isSome = true := by
  have hmem := digitsU_mem t h
  have hE : splitAtPred isECh t = (t, none) :=
    splitAtPred_eq_self _ _ (fun c hc => by
      rcases hmem c hc with hd | hu
      · exact isECh_false_of_digit c hd
      · rw [hu]; exact isECh_false_of_und)
  have hD : splitAtPred isDotCh t = (t, none) :=
    splitAtPred_eq_self _ _ (fun c hc => by
      rcases hmem c hc with hd | hu
      · exact isDotCh_false_of_digit c hd
      · rw [hu]; exact isDotCh_false_of_und)
  simp only [parseUnsignedFloatU, hE]
  unfold parseMantU
  rw [hD]
  simp only [h, if_true]
  rfl

theorem pyFloatParse_isSome_of_int (s : String) (n : Int) (h : pyIntParse s = some n) :
    (pyFloatParse s).isSome = true := by
  simp only [pyIntParse] at h
  by_cases hd : digitsU (signSplit (stripWsL s.data)).2 = true
  · simp only [pyFloatParse]
    split
    · rfl
    split
    · rfl
    · have hp := parseUnsignedFloatU_of_digitsU _ hd
      cases hq : parseUnsignedFloatU (signSplit (stripWsL s.data)).2 with
      | none => rw [hq] at hp; cases hp
      | some q => rfl
  · rw [if_neg hd] at h; cases h

theorem pyIntParse_eq_none_of_float_none (s : String) (h : pyFloatParse s = none) :
    pyIntParse s = none := by
  cases hi : pyIntParse s with
  | none => rfl
  | some n =>
    have hs := pyFloatParse_isSome_of_int s n hi
    rw [h] at hs
    cases hs

theorem sqlNumLiteral_of_digits (s : String)
    (hd : digitsOnly (signSplit (stripWsL s.data)).2 = true) :
    sqlNumLiteral s = some ((signSplit (stripWsL s.data)).1,
      natOfDigits (signSplit (stripWsL s.data)).2, 0, 0) := by
  have hall := List.all_eq_true.mp
    ((Bool.and_eq_true _ _).mp (by unfold digitsOnly at hd; exact hd)).2
  have hE : splitAtPred isECh (signSplit (stripWsL s.data)).2 =
      ((signSplit (stripWsL s.data)).2, none) :=
    splitAtPred_eq_self _ _ (fun c hc => isECh_false_of_digit c (hall c hc))
  have hD : splitAtPred isDotCh (signSplit (stripWsL s.data)).2 =
      ((signSplit (stripWsL s.data)).2, none) :=
    splitAtPred_eq_self _ _ (fun c hc => isDotCh_false_of_digit c (hall c hc))
  simp only [sqlNumLiteral, hE]
  unfold parseMant
  rw [hD]
  simp only [hd, if_true]

theorem sqlIntOfComps_digits (sg : Bool) (m : Nat) :
    sqlIntOfComps (sg, m, 0, 0) = some (if sg then -(m : Int) else (m : Int)) := by
  simp only [sqlIntOfComps]
  norm_num

/-! ## Claim theorems -/

/-- C1 counterexample: with a subprocess that exits non-zero (run `procX`:
one stdout line `"x"`, exit code 1, stderr `"boom"`), two iterations of the
reader loop already contain two launches of the command — the supervisor
relaunches the subprocess with no operator action — and the synthetic
`"Error: boom"` line is never delivered to the consumer. -/
theorem c1_counterexample :
    readerTrace (fun _ => Except.ok procX) 2 =
      [REvent.launch, REvent.emit "x", REvent.launch, REvent.emit "x"] ∧
    (readerTrace (fun _ => Except.ok procX) 2).count REvent.launch = 2 ∧
    REvent.emit ("Error: " ++ stderrText procX) ∉ readerTrace (fun _ => Except.ok procX) 2 :=
  ⟨by decide, by decide, by decide⟩

/-- C1 (amended): every iteration of the reader's `while True` loop
launches the command once more (the trace after `n` iterations contains
exactly `n` launches, unboundedly — the subprocess is auto-restarted after
every exit), and fatal states are swallowed, not surfaced: a failed launch
contributes no emitted line at all, and a completed run contributes exactly
the lines of its stdout — the synthetic error tail raises inside the
decode step and is discarded by the reader's bare exception handler. -/
theorem c1_amended (behav : Nat → Except String Proc) (n : Nat) (e : String) (p : Proc) :
    (readerTrace behav n).count REvent.launch = n ∧
    processIter (runProcess (Except.error e)) = [] ∧
    processIter (runProcess (Except.ok p)) = processIter (p.stdoutLines.map PyLine.bytes) := by
  refine ⟨?_, rfl, ?_⟩
  · induction n with
    | zero => rfl
    | succ n ih =>
      rw [readerTrace, List.count_append, ih, List.count_cons_self, count_launch_map_emit]
  · show processIter
      (p.stdoutLines.map PyLine.bytes ++
        (if p.retcode ≠ 0 ∧ stderrText p ≠ "" then
          [PyLine.pystr ("Error: " ++ stderrText p)] else [])) = _
    by_cases h : p.retcode ≠ 0 ∧ stderrText p ≠ ""
    · rw [if_pos h, processIter_bytes_append]
    · rw [if_neg h, List.append_nil]

/-- C2 counterexample: `start_capture` does not reset the Live Table.
Starting a capture on the concrete state `stA`, whose table holds one row,
leaves that row in place — the table does not have zero rows after a new
session starts. -/
theorem c2_counterexample :
    (start_capture stA "2024-01-01 10:00 CET").imsi_table = stA.imsi_table ∧
    stA.imsi_table.length = 1 :=
  ⟨rfl, rfl⟩

/-- C2 (amended): the Live Table is never cleared — there is no reset at a
session boundary; `start_capture` leaves the table exactly as it was, and
every modeled operation is append-only: `update_table` only ever appends
rows at the end and `repeat_scan` (which runs `start_capture` on success)
leaves the table unchanged, so previously appended rows are never removed
or mutated. -/
theorem c2_amended (st : AppState) (tstamp line rt : String) (logs : SessionLogs) :
    (start_capture st tstamp).imsi_table = st.imsi_table ∧
    (∃ suffix, (update_table st line).imsi_table = st.imsi_table ++ suffix) ∧
    (repeat_scan st logs rt).1.imsi_table = st.imsi_table := by
  refine ⟨rfl, ?_, ?_⟩
  · unfold update_table
    split
    · exact ⟨[recordRow line], rfl⟩
    · exact ⟨[], (List.append_nil _).symm⟩
  · unfold repeat_scan
    split <;> rfl

/-- C3: every input line that is empty, contains `"CellId"`, or has fewer
than 6 semicolon separators is rejected by the record filter —
`update_table` appends no row and leaves the state untouched. -/
theorem c3_not_a_record (st : AppState) (line : String)
    (h : line = "" ∨ hasCellId line = true ∨ semiCount line < 6) :
    update_table st line = st := by
  unfold update_table
  rw [if_neg]
  rintro ⟨h6, hcell⟩
  rcases h with rfl | hc | hlt
  · exact absurd h6 (by decide)
  · rw [hc] at hcell; cases hcell
  · omega

/-- C3 witness: the header echo line is rejected on the concrete empty
state. -/
theorem c3_not_a_record_witness :
    hasCellId "CellId;a;b;c;d;e;f" = true ∧
      update_table stB "CellId;a;b;c;d;e;f" = stB :=
  ⟨by decide, c3_not_a_record stB _ (Or.inr (Or.inl (by decide)))⟩

/-- C8 counterexample: the synthetic error line is gated on a non-zero
exit code, not on stderr content.  The run `procZ` exits with code 0 while
its stderr holds `"oops"`, yet the sequence produced by `runProcess`
contains no synthetic line at all — it is just the one stdout byte line. -/
theorem c8_counterexample :
    stderrText procZ = "oops" ∧
      runProcess (Except.ok procZ) = [PyLine.bytes [104, 105]] :=
  ⟨by decide, by decide⟩

/-- C8 (amended): when the process exits with a non-zero code AND its
stripped stderr text is non-empty, `runProcess` yields exactly one final
synthetic `"Error: <stderr text>"` line after the stdout lines and the
sequence ends; and when the launch itself fails, the sequence is exactly
the single synthetic `"Exception: <description>"` line — the launch failure
is never propagated as a fault. -/
theorem c8_amended (p : Proc) (e : String) :
    (p.retcode ≠ 0 → stderrText p ≠ "" →
      runProcess (Except.ok p) =
        p.stdoutLines.map PyLine.bytes ++ [PyLine.pystr ("Error: " ++ stderrText p)]) ∧
    runProcess (Except.error e) = [PyLine.pystr ("Exception: " ++ e)] := by
  refine ⟨fun h1 h2 => ?_, rfl⟩
  show p.stdoutLines.map PyLine.bytes ++
      (if p.retcode ≠ 0 ∧ stderrText p ≠ "" then
        [PyLine.pystr ("Error: " ++ stderrText p)] else []) = _
  rw [if_pos ⟨h1, h2⟩]

/-- C8 witness: the run `procX` (exit code 1, stderr `"boom"`) produces its
stdout line followed by the one synthetic error line. -/
theorem c8_amended_witness :
    procX.retcode ≠ 0 ∧ stderrText procX ≠ "" ∧
      runProcess (Except.ok procX) =
        procX.stdoutLines.map PyLine.bytes ++ [PyLine.pystr ("Error: " ++ stderrText procX)] :=
  ⟨by decide, by decide, (c8_amended procX "m").1 (by decide) (by decide)⟩

/-- C9 counterexample: the fallback decode uses `errors='ignore'`, which
drops invalid sequences instead of replacing them: the invalid byte 0xFF in
front of `"hi"` vanishes from the decoded result — no replacement character
(U+FFFD) appears and the output equals the decode of the valid bytes
alone. -/
theorem c9_counterexample :
    decodeLine [255, 104, 105] = "hi" ∧
    decodeLine [255, 104, 105] = decodeLine [104, 105] ∧
    '�' ∉ (decodeLine [255, 104, 105]).data :=
  ⟨by decide, by decide, by decide⟩

/-- C9 (amended): decoding is permissive and total — it never raises: on
valid UTF-8 input the strict decode succeeds, the reader's per-line decode
returns its stripped text, and the `ignore` fallback agrees with the strict
decode; on invalid input the fallback drops (rather than replaces) the
offending bytes. -/
theorem c9_amended (b : List Nat) (cs : List Char)
    (h : utf8StrictAux b.length b = some cs) :
    decodeLine b = pyStrip ⟨cs⟩ ∧ utf8DecodeIgnore b = ⟨cs⟩ := by
  have hig := ignore_agrees_strict b.length b cs (le_refl _) h
  constructor
  · unfold decodeLine utf8DecodeStrict
    rw [h]
    rfl
  · unfold utf8DecodeIgnore
    rw [hig]

/-- C9 witness: the valid byte pair `"hi"` decodes strictly and the
fallback agrees. -/
theorem c9_amended_witness :
    utf8StrictAux ([104, 105] : List Nat).length [104, 105] = some ['h', 'i'] ∧
      decodeLine [104, 105] = pyStrip ⟨['h', 'i']⟩ ∧
      utf8DecodeIgnore [104, 105] = ⟨['h', 'i']⟩ :=
  ⟨by decide, (c9_amended [104, 105] ['h', 'i'] (by decide)).1,
    (c9_amended [104, 105] ['h', 'i'] (by decide)).2⟩

/-- C4 counterexample: for a record-bearing line whose remainder has fewer
than 11 fields, the missing trailing fields are NOT empty strings — the
cells are simply never set.  For `"1;a;b;c;d;e;f"` (6 fields after the
skip) the 11th cell is unset (`none`), and the sqlite export consequently
binds SQL NULL for it, whereas an empty-string cell would be stored as the
text `""`. -/
theorem c4_counterexample :
    (recordRow "1;a;b;c;d;e;f").get? 10 = some none ∧
    ((export_sqlite dbEmpty [recordRow "1;a;b;c;d;e;f"]).rows.get? 0 >>=
        fun r => r.get? 10) = some SqlVal.null ∧
    sqliteStore "integer" (some "") = SqlVal.text "" :=
  ⟨by decide, by decide, by decide⟩

/-- C4 (amended): for every record-bearing line (at least 6 semicolons, no
`"CellId"`), `update_table` appends exactly one 11-cell row obtained by
splitting on semicolons and dropping the first field; the cells are set
positionally, extra trailing fields beyond the 11 columns are ignored, and
missing trailing cells are left unset — they read back as empty text in the
textual views (`cellText`), padding the remainder with `""`.  The
specification's scenario line yields exactly the expected 11 values, all
set. -/
theorem c4_amended :
    (∀ (st : AppState) (line : String),
        6 ≤ semiCount line ∧ hasCellId line = false →
          (update_table st line).imsi_table = st.imsi_table ++ [recordRow line] ∧
          (recordRow line).length = 11 ∧
          (recordRow line).map cellText =
            ((splitSemis line).drop 1).take 11 ++
              List.replicate (11 - ((splitSemis line).drop 1).length) "") ∧
    recordRow scenarioLine =
      [some "111", some "222", some "310170000000001", some "USA", some "Verizon",
       some "Verizon", some "310", some "170", some "12345", some "0x1A2B",
       some "2024-01-01 10:00 CET"] := by
  constructor
  · intro st line h
    refine ⟨?_, ?_, ?_⟩
    · unfold update_table
      rw [if_pos h]
    · simp [recordRow]
    · unfold recordRow
      rw [List.map_map]
      exact range_map_get_pad 11 _
  · decide

/-- C4 witness: the scenario line passes the record filter and is appended
to the empty-table state. -/
theorem c4_amended_witness :
    (6 ≤ semiCount scenarioLine ∧ hasCellId scenarioLine = false) ∧
      (update_table stB scenarioLine).imsi_table = stB.imsi_table ++ [recordRow scenarioLine] :=
  ⟨⟨by decide, by decide⟩, (c4_amended.1 stB scenarioLine ⟨by decide, by decide⟩).1⟩

/-- C5 counterexample: the sqlite export does not place values in columns
of the same meaning, and a non-numeric cell is not nulled.  For the
scenario row the table's MCC cell holds `"310"`, but the `mcc` column
(schema position 7) stores 170 — the MNC value, because the on-screen
table has no `stamp` column and every value lands one schema column early —
and the `cell` column (position 10) stores the raw timestamp text
`"2024-01-01 10:00 CET"` rather than a numeric value or NULL. -/
theorem c5_counterexample :
    (recordRow scenarioLine).get? 6 = some (some "310") ∧
    ((export_sqlite dbEmpty [recordRow scenarioLine]).rows.get? 0 >>=
        fun r => r.get? 7) = some (SqlVal.intg 170) ∧
    ((export_sqlite dbEmpty [recordRow scenarioLine]).rows.get? 0 >>=
        fun r => r.get? 10) = some (SqlVal.text "2024-01-01 10:00 CET") :=
  ⟨by decide, by decide, by decide⟩

/-- C5 (amended): the sqlite export creates the `observations` table if
absent with the fixed 11-column schema and appends one row per table row,
binding the 11 cells positionally onto the schema columns (which shifts
every value one column of meaning, since the schema's first column `stamp`
has no counterpart in the on-screen table); an absent cell is bound as SQL
NULL; under a numeric-affinity column, an integer literal whose value fits
a signed 64-bit word is stored as that integer, any other well-formed
numeric literal is stored as a numeric value (INTEGER or REAL, by its
value), and text that is not a numeric literal is stored as the raw text —
never nulled, and the export never throws on it. -/
theorem c5_amended (db : SqliteDB) (table : List (List (Option String))) :
    (export_sqlite db table).tableExists = true ∧
    (export_sqlite db table).rows = db.rows ++ table.map insertedRow ∧
    (∀ t, sqliteStore t none = SqlVal.null) ∧
    (∀ s n, sqlIntLiteral s = some n → -(2 ^ 63 : Int) ≤ n → n < 2 ^ 63 →
      sqliteStore "integer" (some s) = SqlVal.intg n) ∧
    (∀ s, sqlRealLiteral s = none → sqliteStore "integer" (some s) = SqlVal.text s) ∧
    (∀ s c, sqlNumLiteral s = some c →
      (∃ n, sqliteStore "integer" (some s) = SqlVal.intg n) ∨
      (∃ r, sqliteStore "integer" (some s) = SqlVal.realv r)) := by
  have haff : colNumericAffinity "integer" = true := by decide
  refine ⟨rfl, rfl, fun t => rfl, fun s n h h1 h2 => ?_, fun s h => ?_, fun s c hc => ?_⟩
  · simp only [sqlIntLiteral] at h
    by_cases hd : digitsOnly (signSplit (stripWsL s.data)).2 = true
    · rw [if_pos hd] at h
      have hnum := sqlNumLiteral_of_digits s hd
      have hcomps := sqlIntOfComps_digits (signSplit (stripWsL s.data)).1
        (natOfDigits (signSplit (stripWsL s.data)).2)
      rw [Option.some.inj h] at hcomps
      simp only [sqliteStore, haff, if_true, hnum, hcomps]
      rw [if_pos ⟨h1, h2⟩]
    · rw [if_neg hd] at h; cases h
  · have hnum : sqlNumLiteral s = none := Option.map_eq_none'.mp h
    simp only [sqliteStore, haff, if_true, hnum]
  · simp only [sqliteStore, haff, if_true, hc]
    cases hco : sqlIntOfComps c with
    | some n =>
      by_cases hr : -(2 ^ 63 : Int) ≤ n ∧ n < 2 ^ 63
      · exact Or.inl ⟨n, by dsimp only; rw [if_pos hr]⟩
      · exact Or.inr ⟨sqlNumValue c, by dsimp only; rw [if_neg hr]⟩
    | none => exact Or.inr ⟨sqlNumValue c, rfl⟩

/-- C5 witness: concrete storage conversions — `"170"` is stored as the
integer 170, the non-numeric `"0x1A2B"` as raw text, and the fractional
literal `"1.5"` as a numeric value, not as text. -/
theorem c5_amended_witness :
    sqlIntLiteral "170" = some 170 ∧
      sqliteStore "integer" (some "170") = SqlVal.intg 170 ∧
      sqlRealLiteral "0x1A2B" = none ∧
      sqliteStore "integer" (some "0x1A2B") = SqlVal.text "0x1A2B" ∧
      sqlNumLiteral "1.5" = some (false, 15, 1, 0) ∧
      ((∃ n, sqliteStore "integer" (some "1.5") = SqlVal.intg n) ∨
        (∃ r, sqliteStore "integer" (some "1.5") = SqlVal.realv r)) :=
  ⟨by decide,
    (c5_amended dbEmpty []).2.2.2.1 "170" 170 (by decide) (by decide) (by decide),
    by decide,
    (c5_amended dbEmpty []).2.2.2.2.1 "0x1A2B" (by decide),
    by decide,
    (c5_amended dbEmpty []).2.2.2.2.2 "1.5" (false, 15, 1, 0) (by decide)⟩

/-- C6 counterexample: export is not all-or-nothing and success is not tied
to a completed export.  Choosing a name that matches none of the supported
extensions writes nothing at all yet still shows the success dialog; and an
I/O failure after the first write of a `.csv` export leaves a
partially-written file (just the header chunk) under the requested name
while the exception propagates unwrapped. -/
theorem c6_counterexample :
    export_table "scan.xlsx" [recordRow scenarioLine] dbEmpty none =
      ⟨none, none, true, false⟩ ∧
    export_table "scan.csv" [recordRow scenarioLine] dbEmpty (some 1) =
      ⟨some [csvRow headerLabels], none, false, true⟩ :=
  ⟨by decide, by decide⟩

/-- C6 (amended): the export writes directly to the requested destination
with no temporary-file or rollback discipline.  For a `.csv` destination,
an I/O failure at write call `k` leaves exactly the first `k` chunks under
the requested name, shows no success dialog, and lets the exception
propagate; a clean run writes all chunks and reports success; and a
non-empty name matching none of the supported extensions writes nothing
while still reporting success. -/
theorem c6_amended (fileName : String) (table : List (List (Option String)))
    (db : SqliteDB) (k : Nat) :
    (strEndsWith fileName ".csv" = true →
      export_table fileName table db (some k) =
        ⟨some ((csvChunks table).take k), none, false, true⟩) ∧
    (strEndsWith fileName ".csv" = true →
      export_table fileName table db none =
        ⟨some (csvChunks table), none, true, false⟩) ∧
    (fileName ≠ "" → strEndsWith fileName ".csv" = false →
      strEndsWith fileName ".txt" = false → strEndsWith fileName ".sqlite" = false →
      export_table fileName table db none = ⟨none, none, true, false⟩) := by
  refine ⟨fun h => ?_, fun h => ?_, fun h0 h1 h2 h3 => ?_⟩
  · have hne : fileName ≠ "" := by
      intro he
      rw [he] at h
      exact absurd h (by decide)
    unfold export_table
    rw [if_neg hne, if_pos h]
    rfl
  · have hne : fileName ≠ "" := by
      intro he
      rw [he] at h
      exact absurd h (by decide)
    unfold export_table
    rw [if_neg hne, if_pos h]
    rfl
  · unfold export_table
    rw [if_neg h0]
    simp only [h1, h2, h3, Bool.false_eq_true, if_false]

/-- C6 witness: the concrete `.csv` fault at write 1 and the concrete
unknown-extension success. -/
theorem c6_amended_witness :
    strEndsWith "scan.csv" ".csv" = true ∧
      export_table "scan.csv" [recordRow scenarioLine] dbEmpty (some 1) =
        ⟨some ((csvChunks [recordRow scenarioLine]).take 1), none, false, true⟩ ∧
      export_table "scan.xlsx" [] dbEmpty none = ⟨none, none, true, false⟩ :=
  ⟨by decide,
    (c6_amended "scan.csv" [recordRow scenarioLine] dbEmpty 1).1 (by decide),
    (c6_amended "scan.xlsx" ([] : List (List (Option String))) dbEmpty 0).2.2
      (by decide) (by decide) (by decide) (by decide)⟩

/-- C7: for every stored session whose frequency, gain or ppm value is
absent (missing key), JSON null, or an ASCII-clean string that CPython
`float()` rejects (the region on which the modelled grammar — including
`inf`/`infinity`/`nan` and underscored digits — is exactly CPython's), the
replay fails (the raised conversion/lookup error is caught and reported as
a dialog) and performs no mutation at all: the grgsm capture
configuration, the UI controls and the whole application state are
unchanged and no new capture is started. -/
theorem c7_replay_conversion_failure (st : AppState) (logs : SessionLogs) (tstamp : String)
    (h : floatBad logs.frequency ∨ floatBad logs.gain ∨ floatBad logs.ppm) :
    repeat_scan st logs tstamp = (st, ReplayOutcome.failed) := by
  have hfnull : convFreq JVal.null = some none := rfl
  have hvnull : convFloatVal JVal.null = some none := rfl
  obtain ⟨fq, gq, pq⟩ := logs
  simp only [floatBad] at h
  rcases fq with _ | fv
  · rcases gq with _ | gv <;> rcases pq with _ | pv <;> rfl
  rcases gq with _ | gv
  · rcases pq with _ | pv <;> rfl
  rcases pq with _ | pv
  · rfl
  rcases h with (h | h | ⟨s, hs, hcl, hps⟩) | (h | h | ⟨s, hs, hcl, hps⟩) | (h | h | ⟨s, hs, hcl, hps⟩)
  · exact Option.noConfusion h
  · obtain rfl : fv = JVal.null := Option.some.inj h
    cases hg : convFloatVal gv <;> cases hp : convFloatVal pv <;>
      simp only [repeat_scan, extract_params_from_logs, hfnull, hg, hp]
  · obtain rfl : fv = JVal.str s := Option.some.inj hs
    have hi := pyIntParse_eq_none_of_float_none s hps
    have hcf : convFreq (JVal.str s) = none := by simp only [convFreq, hi]
    cases hg : convFloatVal gv <;> cases hp : convFloatVal pv <;>
      simp only [repeat_scan, extract_params_from_logs, hcf, hg, hp]
  · exact Option.noConfusion h
  · obtain rfl : gv = JVal.null := Option.some.inj h
    cases hf : convFreq fv with
    | none =>
      cases hp : convFloatVal pv <;>
        simp only [repeat_scan, extract_params_from_logs, hf, hvnull, hp]
    | some f =>
      cases hp : convFloatVal pv with
      | none => simp only [repeat_scan, extract_params_from_logs, hf, hvnull, hp]
      | some p =>
        rcases f with _ | f' <;>
          simp only [repeat_scan, extract_params_from_logs, hf, hvnull, hp]
  · obtain rfl : gv = JVal.str s := Option.some.inj hs
    have hcg : convFloatVal (JVal.str s) = none := by simp only [convFloatVal, hps]
    cases hf : convFreq fv <;> cases hp : convFloatVal pv <;>
      simp only [repeat_scan, extract_params_from_logs, hf, hcg, hp]
  · exact Option.noConfusion h
  · obtain rfl : pv = JVal.null := Option.some.inj h
    cases hf : convFreq fv with
    | none =>
      cases hg : convFloatVal gv <;>
        simp only [repeat_scan, extract_params_from_logs, hf, hg, hvnull]
    | some f =>
      cases hg : convFloatVal gv with
      | none => simp only [repeat_scan, extract_params_from_logs, hf, hg, hvnull]
      | some g =>
        rcases f with _ | f' <;> rcases g with _ | g' <;>
          simp only [repeat_scan, extract_params_from_logs, hf, hg, hvnull]
  · obtain rfl : pv = JVal.str s := Option.some.inj hs
    have hcp : convFloatVal (JVal.str s) = none := by simp only [convFloatVal, hps]
    cases hf : convFreq fv <;> cases hg : convFloatVal gv <;>
      simp only [repeat_scan, extract_params_from_logs, hf, hg, hcp]

/-- C7 witness: a session with a non-numeric gain string is rejected on the
concrete empty state — the state, configuration included, is returned
untouched. -/
theorem c7_replay_conversion_failure_witness :
    floatBad (some (JVal.str "abc")) ∧
      repeat_scan stB ⟨some (JVal.str "943203831"), some (JVal.str "abc"), some (JVal.num 0)⟩ "t" =
        (stB, ReplayOutcome.failed) :=
  ⟨Or.inr (Or.inr ⟨"abc", rfl, by decide, by decide⟩),
    c7_replay_conversion_failure stB _ "t"
      (Or.inr (Or.inl (Or.inr (Or.inr ⟨"abc", rfl, by decide, by decide⟩))))⟩

/-- C10: the replay's parameter extraction coerces the stored frequency
with integer parsing (`int(...)`) but gain and ppm with floating-point
parsing (`float(...)`): a stored frequency string that denotes a
non-integer number (float-parseable but not int-parseable) makes the
replay fail with the conversion error and mutate nothing, while the very
same string stored as gain and ppm is accepted and the replay proceeds to
start a capture. -/
theorem c10_freq_int_vs_float (st : AppState) (tstamp s : String)
    (hf : (pyFloatParse s).isSome = true) (hi : pyIntParse s = none) :
    repeat_scan st ⟨some (JVal.str s), some (JVal.str "50"), some (JVal.str "0")⟩ tstamp =
      (st, ReplayOutcome.failed) ∧
    (repeat_scan st ⟨some (JVal.str "943203831"), some (JVal.str s), some (JVal.str s)⟩
        tstamp).2 = ReplayOutcome.started := by
  constructor
  · have hcf : convFreq (JVal.str s) = none := by simp only [convFreq, hi]
    cases hg : convFloatVal (JVal.str "50") <;> cases hp : convFloatVal (JVal.str "0") <;>
      simp only [repeat_scan, extract_params_from_logs, hcf, hg, hp]
  · obtain ⟨q, hq⟩ := Option.isSome_iff_exists.mp hf
    have hcs : convFloatVal (JVal.str s) = some (some q) := by
      simp only [convFloatVal, hq]
    have hcf : convFreq (JVal.str "943203831") = some (some ((943203831 : Int) : ℚ)) := by
      have : pyIntParse "943203831" = some 943203831 := by decide
      simp only [convFreq, this]
    simp only [repeat_scan, extract_params_from_logs, hcf, hcs]

/-- C10 witness: the fractional string `"943203831.5"` parses as a float
but not as an integer; stored as the frequency it aborts the replay, stored
as gain and ppm it is accepted and the capture starts. -/
theorem c10_freq_int_vs_float_witness :
    (pyFloatParse "943203831.5").isSome = true ∧
      pyIntParse "943203831.5" = none ∧
      repeat_scan stB
          ⟨some (JVal.str "943203831.5"), some (JVal.str "50"), some (JVal.str "0")⟩ "t" =
        (stB, ReplayOutcome.failed) ∧
      (repeat_scan stB
          ⟨some (JVal.str "943203831"), some (JVal.str "943203831.5"),
            some (JVal.str "943203831.5")⟩ "t").2 = ReplayOutcome.started :=
  ⟨by decide, by decide,
    (c10_freq_int_vs_float stB "t" "943203831.5" (by decide) (by decide)).1,
    (c10_freq_int_vs_float stB "t" "943203831.5" (by decide) (by decide)).2⟩
